import Mathlib

/-!
Shallow embedding of the `heimdalr/httprouter` repository (src/router.go,
src/context.go, src/httpError.go) and proofs about the claims of its
specification.

The radix-trie implementation (`node`, `node.addRoute`, `node.getValue`,
`node.findCaseInsensitivePath`, `CleanPath`, `countParams`, file tree.go of the
upstream project) is not part of the given sources; where a router operation
calls into it, the trie is abstracted as an unknown function (see `TreeM`
below), and theorems are stated for every instantiation of that function.
-/

namespace HttpRouter

/-- Param is a single URL parameter, consisting of a key and a value
(src/router.go, `Param`). -/
structure Param where
  Key : String
  Value : String
deriving DecidableEq, Repr

/-- Params is a Param-slice, as returned by the router (src/router.go,
`Params`). -/
abbrev Params := List Param

/-- ByName returns the value of the first Param whose key matches the given
name; if no matching Param is found, an empty string is returned
(src/router.go lines 106-113). -/
def Params.ByName : Params → String → String
  | [], _ => ""
  | p :: ps, name => if p.Key = name then p.Value else Params.ByName ps name

/-- MatchedRoutePathParam is the Param name under which the path of the
matched route is stored (src/router.go line 129). -/
def MatchedRoutePathParam : String := "$matchedRoutePath"

/-- The parameter slice the wrapped handler produced by
`Router.saveMatchedRoutePath` (src/router.go lines 244-258) passes to the
user handler, as a function of the params captured by the route: `none`
models `c.Params == nil` (the route captured no parameters), in which case
the wrapper hands the handler the one-element slice holding the pattern;
otherwise the wrapper appends the pattern param to the captured slice. -/
def saveMatchedRoutePathParams (path : String) (caught : Option Params) : Params :=
  match caught with
  | none => [⟨MatchedRoutePathParam, path⟩]
  | some ps => ps ++ [⟨MatchedRoutePathParam, path⟩]

/-! ### Param buffer pool

`Router.getParams` / `Router.putParams` (src/router.go lines 232-242).
A Go slice is a view `(data, len)` into backing storage; the reslice
`(*ps)[0:0]` keeps the storage and sets the length to zero. The sync.Pool is
modelled as a list of released buffers; `Get` takes the most recently
released buffer when one is available, otherwise the pool's `New` result
(passed here as `fresh`). -/

/-- A Go `Params` slice value: backing storage plus current length. -/
structure PSlice where
  data : List Param
  len : Nat
deriving DecidableEq, Repr

/-- The elements visible through the slice view. -/
def PSlice.visible (s : PSlice) : List Param := s.data.take s.len

/-- Pool of released parameter buffers (`Router.paramsPool`). -/
structure ParamsPool where
  bufs : List PSlice
deriving DecidableEq, Repr

/-- The reslice `*ps = (*ps)[0:0]` performed by `getParams`
(src/router.go line 234): length zero, storage untouched. -/
def PSlice.resetSlice (s : PSlice) : PSlice := { s with len := 0 }

/-- getParams (src/router.go lines 232-236): take a buffer from the pool
(or a fresh one when the pool is empty) and truncate it to length zero. -/
def getParams (pool : ParamsPool) (fresh : PSlice) : PSlice × ParamsPool :=
  match pool.bufs with
  | [] => (fresh.resetSlice, ⟨[]⟩)
  | b :: rest => (b.resetSlice, ⟨rest⟩)

/-- putParams (src/router.go lines 238-242): release the buffer back to the
pool unchanged (no deallocation). -/
def putParams (pool : ParamsPool) (b : PSlice) : ParamsPool := ⟨b :: pool.bufs⟩

/-! ### Response writer and the default OPTIONS responder -/

/-- An http.Header: ordered key/value pairs; `Get` returns the first value
for the key or the empty string, `Set` replaces all values of the key. -/
structure Header where
  pairs : List (String × String)
deriving DecidableEq, Repr

/-- Header.Get: first value set for the key, or the empty string. -/
def Header.get (h : Header) (k : String) : String :=
  match h.pairs.lookup k with
  | some v => v
  | none => ""

/-- Header.Set: replace any existing values of the key. -/
def Header.set (h : Header) (k v : String) : Header :=
  ⟨h.pairs.filter (fun p => p.1 ≠ k) ++ [(k, v)]⟩

/-- The observable effect of a handler on the response writer: headers set
and the status code written (Go ignores a second WriteHeader call). -/
structure Response where
  header : Header
  status : Option Nat
deriving DecidableEq, Repr

/-- WriteHeader: records the status code; later calls are ignored. -/
def Response.writeHeader (w : Response) (code : Nat) : Response :=
  match w.status with
  | some _ => w
  | none => { w with status := some code }

/-- The response writer before the responder runs: no headers, no status. -/
def emptyResponse : Response := ⟨⟨[]⟩, none⟩

/-- defaultOptions (src/router.go lines 653-671), as a function of the
request's `Access-Control-Request-Method` header value (the result of
`r.Header.Get`, empty when the header is absent) and the computed allow
list: sets the two CORS headers when that value is non-empty, then writes
status 204 No Content. -/
def defaultOptions (acrm : String) (allow : String) : Response :=
  let w := emptyResponse
  let w :=
    if acrm ≠ "" then
      (w.header.set "Access-Control-Allow-Methods" allow).set
        "Access-Control-Allow-Origin" "*" |> (fun h => { w with header := h })
    else w
  w.writeHeader 204

/-! ### The router -/

/-- Modelled from the spec: the per-method radix trie (file tree.go of the
upstream project: `node`, `node.addRoute`, `node.getValue`,
`node.findCaseInsensitivePath`) is not among the given sources. Only the
router code's view of a trie is kept: `getValue path` yields whether a
handler was found, the captured params slice (`none` models a nil slice),
and the trailing-slash recommendation; `findCaseInsensitivePath cleaned
fixTrailing` yields the case-fixed path and whether one was found. Theorems
below hold for every instantiation of these functions. -/
structure TreeM where
  getValue : String → Bool × Option Params × Bool
  findCaseInsensitivePath : String → Bool → String × Bool

/-- The state of a `Router` (src/router.go lines 140-216) relevant to the
verified claims: the per-method tries (a Go map, modelled as an association
list with pairwise distinct keys maintained by `Router.handle`), the cached
global allow list, and the configuration flags read by `ServeHTTP`. -/
structure Router where
  trees : List (String × TreeM)
  globalAllowed : String
  RedirectTrailingSlash : Bool
  RedirectFixedPath : Bool
  HandleOptions : Bool
  HandleMethodNotAllowed : Bool

/-- The methods for which a trie is registered (the key set of `r.trees`). -/
def registeredMethods (trees : List (String × TreeM)) : List String :=
  trees.map Prod.fst

/-- The list of allowed methods collected by the loops of `Router.allowed`
(src/router.go lines 402-428) before OPTIONS is appended: for the
server-wide path `"*"` with the internal empty request method, every
registered method except OPTIONS; for a specific path, every registered
method other than the request method and OPTIONS whose trie matches the
path with a non-nil handler. -/
def allowedListT (trees : List (String × TreeM)) (path reqMethod : String) :
    List String :=
  if path = "*" then
    trees.filterMap (fun mt => if mt.1 = "OPTIONS" then none else some mt.1)
  else
    trees.filterMap (fun mt =>
      if mt.1 = reqMethod ∨ mt.1 = "OPTIONS" then none
      else if (mt.2.getValue path).1 then some mt.1 else none)

/-- The order in which Go compares the collected method strings
(`allowed[j] < allowed[j-1]`, src/router.go line 438): lexicographic on the
character sequence. Go compares UTF-8 bytes; byte order and codepoint order
agree on UTF-8, and on the ASCII method names they are plain ASCII order.
Stated on `String.data` so that it evaluates by structural recursion. -/
def strLe (a b : String) : Prop := a.data ≤ b.data

instance : DecidableRel strLe :=
  fun a b => inferInstanceAs (Decidable (a.data ≤ b.data))

instance : IsTotal String strLe := ⟨fun a b => le_total a.data b.data⟩

instance : IsTrans String strLe := ⟨fun _ _ _ => le_trans⟩

/-- allowed (src/router.go lines 399-448). For `path = "*"` and a non-empty
request method the cached `globalAllowed` is returned; otherwise the
collected list, when non-empty, gets OPTIONS appended, is insertion-sorted
(the in-place insertion sort of lines 437-441) and joined with `", "`;
when the collected list is empty the empty string is returned. -/
def Router.allowed (r : Router) (path reqMethod : String) : String :=
  if path = "*" ∧ reqMethod ≠ "" then r.globalAllowed
  else
    let l := allowedListT r.trees path reqMethod
    if l.isEmpty then ""
    else String.intercalate ", "
      (List.insertionSort strLe (l ++ ["OPTIONS"]))

/-- The fresh global allow list as the claims describe it: every registered
method except OPTIONS, plus OPTIONS when that set is non-empty, ASCII-sorted
and joined with `", "`; the empty string when no non-OPTIONS method is
registered. -/
def globalAllowSpec (methods : List String) : String :=
  let others := methods.filter (fun m => m ≠ "OPTIONS")
  if others.isEmpty then ""
  else String.intercalate ", "
    (List.insertionSort strLe (others ++ ["OPTIONS"]))

/-- A trie holding no route yet (`new(node)`, src/router.go line 327): no
path matches, no trailing-slash recommendation, no case-fixed path. -/
def emptyTreeM : TreeM :=
  ⟨fun _ => (false, none, false), fun _ _ => ("", false)⟩

/-- Replace the trie registered for `method` (the effect of
`root.addRoute(path, handle)`, src/router.go line 333, on the map: the root
node is mutated in place, the key set is unchanged). -/
def updateTree (trees : List (String × TreeM)) (method : String) (t : TreeM) :
    List (String × TreeM) :=
  trees.map (fun mt => if mt.1 = method then (mt.1, t) else mt)

/-- Handle (src/router.go lines 303-347). Panics are modelled as `.error`;
the user handler is abstracted to `Option Unit` (only its nil-ness is
inspected); the result of `root.addRoute` — trie code that is not among the
given sources — is abstracted as the argument `addRouteResult`. When the
method has no trie yet, a fresh root is put into the map first and then the
global allow cache is refreshed via `allowed("*", "")` (lines 326-331), so
the refresh sees the new method; `maxParams` / pool bookkeeping (lines
335-346) does not affect any verified claim and is omitted. -/
def Router.handle (r : Router) (method path : String) (handle : Option Unit)
    (addRouteResult : TreeM) : Except String Router :=
  if method = "" then .error "method must not be empty"
  else if path.length < 1 ∨ path.toList.head? ≠ some '/' then
    .error "path must begin with slash"
  else if handle.isNone then .error "handle must not be nil"
  else if (r.trees.lookup method).isSome then
    .ok { r with trees := updateTree r.trees method addRouteResult }
  else
    let trees1 := r.trees ++ [(method, emptyTreeM)]
    let ga := Router.allowed { r with trees := trees1 } "*" ""
    .ok { r with trees := updateTree trees1 method addRouteResult,
                 globalAllowed := ga }

/-- Lookup (src/router.go lines 384-397): when a trie exists for the method,
delegate to its `getValue` (returning nil params when no handler was found,
and dereferencing the params pointer otherwise); when no trie exists, return
nil handle, nil params and `false` for tsr. The handler is abstracted to its
presence. -/
def Router.Lookup (r : Router) (method path : String) :
    Bool × Option Params × Bool :=
  match r.trees.lookup method with
  | some root =>
    let res := root.getValue path
    if res.1 then (true, res.2.1, res.2.2)
    else (false, none, res.2.2)
  | none => (false, none, false)

/-- The observable outcome of `ServeHTTP` for one request: the matched
handler was invoked, a redirect with a status code and target path was
written, the OPTIONS responder ran (custom or default, with the computed
allow list), the 405 responder ran, or the not-found responder ran. -/
inductive Outcome where
  | handled
  | redirect (code : Nat) (location : String)
  | options (allow : String)
  | methodNotAllowed (allow : String)
  | notFound
deriving DecidableEq, Repr

/-- The fallback tail of `ServeHTTP` (src/router.go lines 568-628): an
OPTIONS request with `HandleOptions` set gets the automatic OPTIONS reply
when the allow list is non-empty; every other case with
`HandleMethodNotAllowed` set gets a 405 when the allow list is non-empty;
otherwise the not-found responder runs. -/
def Router.fallback (r : Router) (method path : String) : Outcome :=
  if method = "OPTIONS" ∧ r.HandleOptions then
    let allow := r.allowed path "OPTIONS"
    if allow ≠ "" then .options allow else .notFound
  else if r.HandleMethodNotAllowed then
    let allow := r.allowed path method
    if allow ≠ "" then .methodNotAllowed allow else .notFound
  else .notFound

/-- ServeHTTP (src/router.go lines 451-629), abstracted to its outcome.
`cleanPath` stands for the `CleanPath` function (not among the given
sources). When a trie exists for the method and its lookup finds a handler,
the handler is invoked. Otherwise, unless the method is CONNECT or the path
is `"/"`, a redirect is attempted: the status code is 301 for GET and 308
for every other method (lines 520-524); first the trailing-slash redirect
(toggling a trailing `/` on the path), then — when `RedirectFixedPath` is
set — the case-insensitive redirect on the cleaned path. When no redirect
applies, the request falls through to `Router.fallback`. -/
def Router.serveTree (r : Router) (cleanPath : String → String)
    (method path : String) : Option TreeM → Outcome
  | some root =>
    if (root.getValue path).1 then .handled
    else
      if method ≠ "CONNECT" ∧ path ≠ "/" then
        if (root.getValue path).2.2 ∧ r.RedirectTrailingSlash then
          .redirect (if method = "GET" then 301 else 308)
            (if path.length > 1 ∧ path.toList.getLast? = some '/' then
              (path.toList.dropLast).asString
             else path ++ "/")
        else if r.RedirectFixedPath then
          if (root.findCaseInsensitivePath (cleanPath path)
              r.RedirectTrailingSlash).2 then
            .redirect (if method = "GET" then 301 else 308)
              (root.findCaseInsensitivePath (cleanPath path)
                r.RedirectTrailingSlash).1
          else r.fallback method path
        else r.fallback method path
      else r.fallback method path
  | none => r.fallback method path

/-- The top of `ServeHTTP`: select the trie registered for the request
method (`r.trees[req.Method]`, nil when absent) and dispatch on it. -/
def Router.serve (r : Router) (cleanPath : String → String)
    (method path : String) : Outcome :=
  r.serveTree cleanPath method path (r.trees.lookup method)

/-- The shape the claims require of an allow string: either empty, or the
`", "`-join of a non-empty ASCII-sorted list that contains OPTIONS exactly
when it contains a method other than OPTIONS. -/
def AllowOk (s : String) : Prop :=
  s = "" ∨ ∃ l : List String, l ≠ [] ∧ l.Sorted (fun a b => a ≤ b) ∧
    ("OPTIONS" ∈ l ↔ ∃ m ∈ l, m ≠ "OPTIONS") ∧
    s = String.intercalate ", " l

/-! ### Helper lemmas -/

theorem allowedListT_ne_options {trees : List (String × TreeM)}
    {path reqMethod m : String}
    (hm : m ∈ allowedListT trees path reqMethod) : m ≠ "OPTIONS" := by
  unfold allowedListT at hm
  split at hm
  · obtain ⟨mt, _, hf⟩ := List.mem_filterMap.mp hm
    by_cases h : mt.1 = "OPTIONS"
    · simp [h] at hf
    · simp [h] at hf
      exact hf ▸ h
  · obtain ⟨mt, _, hf⟩ := List.mem_filterMap.mp hm
    by_cases h : mt.1 = reqMethod ∨ mt.1 = "OPTIONS"
    · simp [h] at hf
    · by_cases h2 : (mt.2.getValue path).1
      · simp [h, h2] at hf
        intro hc
        exact h (Or.inr (hf ▸ hc))
      · simp [h, h2] at hf

theorem strLe_iff_le (a b : String) : strLe a b ↔ a ≤ b := by
  rw [String.le_iff_toList_le]
  exact Iff.rfl

theorem allowOk_sortedJoin (l0 : List String) (h0 : l0 ≠ [])
    (hno : ∀ m ∈ l0, m ≠ "OPTIONS") :
    AllowOk (String.intercalate ", "
      (List.insertionSort strLe (l0 ++ ["OPTIONS"]))) := by
  right
  have hp := List.perm_insertionSort strLe (l0 ++ ["OPTIONS"])
  refine ⟨_, ?_, ?_, ⟨?_, ?_⟩, rfl⟩
  · intro he
    have hlen := hp.length_eq
    rw [he] at hlen
    simp at hlen
  · exact (List.sorted_insertionSort strLe (l0 ++ ["OPTIONS"])).imp
      (fun hab => (strLe_iff_le _ _).mp hab)
  · intro _
    obtain ⟨m, hm⟩ := List.exists_mem_of_ne_nil l0 h0
    exact ⟨m, hp.mem_iff.mpr (List.mem_append_left _ hm), hno m hm⟩
  · intro _
    exact hp.mem_iff.mpr (List.mem_append_right _ (by simp))

theorem allowedListT_star (trees : List (String × TreeM)) :
    allowedListT trees "*" "" =
      (registeredMethods trees).filter (fun m => m ≠ "OPTIONS") := by
  induction trees with
  | nil => rfl
  | cons mt ts ih =>
    unfold allowedListT at ih ⊢
    by_cases h : mt.1 = "OPTIONS" <;>
      simp [registeredMethods, List.filterMap_cons, List.filter_cons, h] <;>
      simpa [registeredMethods] using ih

theorem allowed_star_refresh (r : Router) :
    r.allowed "*" "" = globalAllowSpec (registeredMethods r.trees) := by
  unfold Router.allowed globalAllowSpec
  rw [if_neg (by simp)]
  rw [allowedListT_star]

theorem registeredMethods_updateTree (trees : List (String × TreeM))
    (method : String) (t : TreeM) :
    registeredMethods (updateTree trees method t) = registeredMethods trees := by
  unfold registeredMethods updateTree
  induction trees with
  | nil => rfl
  | cons mt ts ih => by_cases h : mt.1 = method <;> simp [h] <;> simpa using ih

theorem fallback_ne_redirect (r : Router) (method path : String)
    (code : Nat) (loc : String) :
    r.fallback method path ≠ .redirect code loc := by
  unfold Router.fallback
  split
  · dsimp only
    split <;> simp
  · split
    · dsimp only
      split <;> simp
    · simp

/-! ### Claim theorems -/

/-- C7: for every Params slice `ps` and name, `ps.ByName name` returns the
Value of the first element of `ps` in order whose Key equals the name, and
the empty string when no element has that Key. -/
theorem ByName_first_match (ps : Params) (name : String) :
    Params.ByName ps name =
      ((ps.find? (fun p => p.Key == name)).map Param.Value).getD "" := by
  induction ps with
  | nil => rfl
  | cons p ps ih =>
    by_cases h : p.Key = name
    · simp [Params.ByName, List.find?_cons, h]
    · simp [Params.ByName, List.find?_cons, h, ih]

/-- C1 counterexample: with SaveMatchedRoutePath enabled, a route that
captured the parameter `("name", "gopher")` hands the handler a params
slice whose FIRST element is the captured parameter, not
`$matchedRoutePath` — the wrapper appends the pattern instead of
prepending it when params were captured. -/
theorem saveMatchedRoutePath_not_first_when_params :
    ¬((saveMatchedRoutePathParams "/user/:name"
        (some [⟨"name", "gopher"⟩])).head?.map Param.Key =
      some MatchedRoutePathParam) := by
  decide

/-- C1 (amended): with SaveMatchedRoutePath enabled, the handler receives
the registered pattern under the reserved key `$matchedRoutePath` appended
as the LAST element of the captured params — hence as `params[0]` exactly
when the route captured no other parameters. -/
theorem saveMatchedRoutePath_appends (path : String) (caught : Option Params) :
    saveMatchedRoutePathParams path caught =
      caught.getD [] ++ [⟨MatchedRoutePathParam, path⟩] := by
  cases caught <;> rfl

/-- C9: every Params buffer handed out by getParams has length zero (its
visible slice is empty) regardless of the content and length the buffer had
when it was released with putParams, and the release keeps the backing
storage intact. -/
theorem getParams_hands_out_empty (pool : ParamsPool)
    (released fresh : PSlice) :
    (getParams pool fresh).1.visible = [] ∧
    (getParams (putParams pool released) fresh).1.visible = [] ∧
    (getParams (putParams pool released) fresh).1.data = released.data := by
  refine ⟨?_, ?_, ?_⟩
  · cases pool with
    | mk bufs =>
      cases bufs <;>
        simp [getParams, PSlice.visible, PSlice.resetSlice]
  · simp [getParams, putParams, PSlice.visible, PSlice.resetSlice]
  · simp [getParams, putParams, PSlice.resetSlice]

/-- C8: the default OPTIONS responder always writes status 204 No Content,
and it sets `Access-Control-Allow-Methods` to the allow list and
`Access-Control-Allow-Origin` to `*` exactly when the request carried a
non-empty `Access-Control-Request-Method` header; otherwise it sets no
header at all. -/
theorem defaultOptions_spec (acrm allow : String) :
    (defaultOptions acrm allow).status = some 204 ∧
    (defaultOptions acrm allow).header.pairs =
      (if acrm ≠ "" then
        [("Access-Control-Allow-Methods", allow),
         ("Access-Control-Allow-Origin", "*")]
      else []) := by
  by_cases h : acrm = "" <;>
    simp [defaultOptions, emptyResponse, Header.set, Response.writeHeader, h]

/-- C2: for every path and request method, `allowed(path, reqMethod)` of a
router whose cached global allow list is well-formed returns either the
empty string or a `", "`-join of an ASCII-sorted method list that contains
OPTIONS iff it contains a method other than OPTIONS. -/
theorem allowed_sorted_options (r : Router) (hg : AllowOk r.globalAllowed)
    (path reqMethod : String) : AllowOk (r.allowed path reqMethod) := by
  unfold Router.allowed
  split
  · exact hg
  · by_cases he : (allowedListT r.trees path reqMethod).isEmpty
    · simp only [he, if_pos]
      left
      rfl
    · simp only [he, if_neg, Bool.false_eq_true, if_false]
      exact allowOk_sortedJoin _ (by simpa [List.isEmpty_iff] using he)
        (fun m hm => allowedListT_ne_options hm)

/-- C2 witness: on a router with an empty (hence well-formed) cache the
returned allow string is well-formed. -/
theorem allowed_sorted_options_witness :
    AllowOk ((⟨[("POST", emptyTreeM)], "", true, true, false, false⟩ :
      Router).allowed "/x" "GET") :=
  allowed_sorted_options
    ⟨[("POST", emptyTreeM)], "", true, true, false, false⟩
    (Or.inl rfl) "/x" "GET"

/-- C3: after every call to Handle that returns normally, the cached
`globalAllowed` equals the global allow list computed fresh over the
currently registered set of methods (every registered method except
OPTIONS, plus OPTIONS when that set is non-empty, ASCII-sorted and joined
with `", "`; the empty string when no non-OPTIONS method is registered),
provided the cache was fresh before the call (as it is in every reachable
router state, starting from the empty cache of a new router). -/
theorem handle_globalAllowed_fresh (r : Router) (method path : String)
    (handle : Option Unit) (t : TreeM)
    (hinv : r.globalAllowed = globalAllowSpec (registeredMethods r.trees))
    (r2 : Router) (hok : r.handle method path handle t = .ok r2) :
    r2.globalAllowed = globalAllowSpec (registeredMethods r2.trees) := by
  unfold Router.handle at hok
  split at hok
  · cases hok
  · split at hok
    · cases hok
    · split at hok
      · cases hok
      · split at hok
        · cases hok
          rw [registeredMethods_updateTree]
          exact hinv
        · cases hok
          rw [registeredMethods_updateTree]
          exact allowed_star_refresh
            { r with trees := r.trees ++ [(method, emptyTreeM)] }

/-- C3 witness: registering GET on a new router leaves the cache equal to
the fresh global allow list `"GET, OPTIONS"`. -/
theorem handle_globalAllowed_fresh_witness :
    (⟨[("GET", emptyTreeM)], "GET, OPTIONS", true, true, false, false⟩ :
        Router).globalAllowed =
      globalAllowSpec (registeredMethods [("GET", emptyTreeM)]) :=
  handle_globalAllowed_fresh
    ⟨[], "", true, true, false, false⟩ "GET" "/a" (some ()) emptyTreeM rfl
    ⟨[("GET", emptyTreeM)], "GET, OPTIONS", true, true, false, false⟩
    rfl

/-- C4: whenever ServeHTTP issues a redirect response (trailing-slash or
fixed-path), the status code is 301 if the request method is GET and 308
for every other method. -/
theorem serve_redirect_code (r : Router) (cleanPath : String → String)
    (method path : String) (code : Nat) (loc : String)
    (h : r.serve cleanPath method path = .redirect code loc) :
    code = if method = "GET" then 301 else 308 := by
  unfold Router.serve at h
  cases hl : r.trees.lookup method with
  | none =>
    rw [hl] at h
    exact absurd h (fallback_ne_redirect r method path code loc)
  | some root =>
    rw [hl] at h
    simp only [Router.serveTree] at h
    by_cases h1 : (root.getValue path).1 = true
    · rw [if_pos h1] at h
      simp at h
    · rw [if_neg h1] at h
      by_cases h2 : method ≠ "CONNECT" ∧ path ≠ "/"
      · rw [if_pos h2] at h
        by_cases h3 : (root.getValue path).2.2 = true ∧
            r.RedirectTrailingSlash = true
        · rw [if_pos h3] at h
          injection h with hcode hloc
          exact hcode.symm
        · rw [if_neg h3] at h
          by_cases h4 : r.RedirectFixedPath = true
          · rw [if_pos h4] at h
            by_cases h5 : (root.findCaseInsensitivePath (cleanPath path)
                r.RedirectTrailingSlash).2 = true
            · rw [if_pos h5] at h
              injection h with hcode hloc
              exact hcode.symm
            · rw [if_neg h5] at h
              exact absurd h (fallback_ne_redirect r method path code loc)
          · rw [if_neg h4] at h
            exact absurd h (fallback_ne_redirect r method path code loc)
      · rw [if_neg h2] at h
        exact absurd h (fallback_ne_redirect r method path code loc)

/-- C4 witness: a GET trailing-slash redirect carries status 301. -/
theorem serve_redirect_code_witness :
    (301 : Nat) = if ("GET" : String) = "GET" then 301 else 308 :=
  serve_redirect_code
    ⟨[("GET", ⟨fun _ => (false, none, true), fun _ _ => ("", false)⟩)], "",
      true, true, false, false⟩
    id "GET" "/foo/" 301 "/foo" rfl

/-- C5: for a CONNECT request or a request for the root path, ServeHTTP
never responds with a trailing-slash or fixed-path redirect, whatever the
RedirectTrailingSlash and RedirectFixedPath settings; when no handler
matches, the request goes directly to the OPTIONS / 405 / not-found
fallbacks. -/
theorem serve_connect_or_root_no_redirect (r : Router)
    (cleanPath : String → String) (method path : String)
    (code : Nat) (loc : String)
    (h : method = "CONNECT" ∨ path = "/") :
    r.serve cleanPath method path ≠ .redirect code loc ∧
    (r.serve cleanPath method path = .handled ∨
      r.serve cleanPath method path = r.fallback method path) := by
  have hcond : ¬(method ≠ "CONNECT" ∧ path ≠ "/") := by
    rcases h with h | h <;> simp [h]
  cases hl : r.trees.lookup method with
  | none =>
    have hs : r.serve cleanPath method path = r.fallback method path := by
      unfold Router.serve
      rw [hl]
      simp only [Router.serveTree]
    rw [hs]
    exact ⟨fallback_ne_redirect r method path code loc, Or.inr rfl⟩
  | some root =>
    by_cases hf : (root.getValue path).1 = true
    · have hs : r.serve cleanPath method path = .handled := by
        unfold Router.serve
        rw [hl]
        simp only [Router.serveTree]
        rw [if_pos hf]
      rw [hs]
      exact ⟨by simp, Or.inl rfl⟩
    · have hs : r.serve cleanPath method path = r.fallback method path := by
        unfold Router.serve
        rw [hl]
        simp only [Router.serveTree]
        rw [if_neg hf, if_neg hcond]
      rw [hs]
      exact ⟨fallback_ne_redirect r method path code loc, Or.inr rfl⟩

/-- C5 witness: a CONNECT request on a router with a GET route and both
redirect options enabled is not redirected and falls back to not-found. -/
theorem serve_connect_or_root_no_redirect_witness :
    (⟨[("GET", emptyTreeM)], "", true, true, false, false⟩ :
        Router).serve id "CONNECT" "/x" ≠ .redirect 301 "/x/" ∧
    ((⟨[("GET", emptyTreeM)], "", true, true, false, false⟩ :
        Router).serve id "CONNECT" "/x" = .handled ∨
      (⟨[("GET", emptyTreeM)], "", true, true, false, false⟩ :
        Router).serve id "CONNECT" "/x" =
        (⟨[("GET", emptyTreeM)], "", true, true, false, false⟩ :
          Router).fallback "CONNECT" "/x") :=
  serve_connect_or_root_no_redirect
    ⟨[("GET", emptyTreeM)], "", true, true, false, false⟩
    id "CONNECT" "/x" 301 "/x/" (Or.inl rfl)

/-- C6: Handle fails fast (a panic, modelled as `.error`) when the method
is empty, the path is empty or does not begin with a slash, or the handle
is nil; the failure is raised before any mutation of the router, so the
trees are unchanged. -/
theorem handle_rejects_invalid (r : Router) (method path : String)
    (handle : Option Unit) (t : TreeM)
    (hbad : method = "" ∨ path = "" ∨ path.toList.head? ≠ some '/' ∨
      handle = none) :
    ∃ msg, r.handle method path handle t = .error msg := by
  by_cases h1 : method = ""
  · refine ⟨"method must not be empty", ?_⟩
    unfold Router.handle
    rw [if_pos h1]
  · by_cases h2 : path.length < 1 ∨ path.toList.head? ≠ some '/'
    · refine ⟨"path must begin with slash", ?_⟩
      unfold Router.handle
      rw [if_neg h1, if_pos h2]
    · have h3 : handle = none := by
        rcases hbad with h | h | h | h
        · exact absurd h h1
        · exact absurd (Or.inl (by simp [h])) h2
        · exact absurd (Or.inr h) h2
        · exact h
      refine ⟨"handle must not be nil", ?_⟩
      unfold Router.handle
      rw [if_neg h1, if_neg h2, h3]
      rfl

/-- C6 witness: registering with an empty method fails. -/
theorem handle_rejects_invalid_witness :
    ∃ msg, (⟨[], "", true, true, false, false⟩ : Router).handle
      "" "/a" (some ()) emptyTreeM = .error msg :=
  handle_rejects_invalid ⟨[], "", true, true, false, false⟩
    "" "/a" (some ()) emptyTreeM (Or.inl rfl)

/-- C10: for a method with no registered trie, Lookup returns a nil handle,
nil params and `tsr = false`, for every path. -/
theorem lookup_unregistered_method (r : Router) (method path : String)
    (h : r.trees.lookup method = none) :
    r.Lookup method path = (false, none, false) := by
  unfold Router.Lookup
  rw [h]

/-- C10 witness: looking up GET on a router with only a POST trie. -/
theorem lookup_unregistered_method_witness :
    (⟨[("POST", emptyTreeM)], "", true, true, false, false⟩ :
      Router).Lookup "GET" "/x" = (false, none, false) :=
  lookup_unregistered_method
    ⟨[("POST", emptyTreeM)], "", true, true, false, false⟩ "GET" "/x" rfl

end HttpRouter
